import Mathlib

namespace Tatoeba

/-
Shallow embedding of the tatoebatools core (src/tatoebatools/datafile.py and
src/tatoebatools/links.py): the record reader (custom_reader, unsplit_field),
the multiplexed buffered writer (Buffer), and the DataFile / Links iteration
entry points.  Python state (the in-memory queues of a Buffer and the files of
the output directory) is made explicit as association lists keyed by filename.
Machine-level details that the claims do not touch (logging text, progress
bars, byte sizes reported by sys.getsizeof) are abstracted: getsizeof is a
function parameter of the operations that consult it.
-/

/-- A field of a table row; Python manipulates it as a string, modelled as a
character list so that splitting on the delimiter is List.splitOn. -/
abbrev Field := List Char

/-- A logical record: the list of its fields (a row of the table). -/
abbrev Rec := List Field

/-- One physical line of a source file, without its trailing newline. -/
abbrev Line := List Char

/-- Lookup in an association list keyed by filename (Python dict access /
filesystem lookup by path). -/
def alookup {β : Type} : List (String × β) → String → Option β
  | [], _ => none
  | (k, v) :: rest, key => if k = key then some v else alookup rest key

/-- Update-or-append in an association list: Python dict assignment keeps the
position of an existing key and appends a fresh key at the end; for the
modelled filesystem the position is irrelevant. -/
def aset {β : Type} : List (String × β) → String → β → List (String × β)
  | [], key, v => [(key, v)]
  | (k, w) :: rest, key, v =>
      if k = key then (k, v) :: rest else (k, w) :: aset rest key v

/-- Remove a key from an association list (Python dict deletion / file
unlink). -/
def aerase {β : Type} : List (String × β) → String → List (String × β)
  | [], _ => []
  | (k, w) :: rest, key => if k = key then aerase rest key else (k, w) :: aerase rest key

/-- datafile.py, unsplit_field (lines 168-181): regroup the designated text
field of a row that was split by embedded delimiters.  A negative index is
adjusted by nb_cols first, exactly as in the source; `row[index_field] = ...`
followed by `del row[index_field+1 : index_field+nb_extra+1]` is the slice
rewrite take/joined/drop.  All call sites keep the adjusted index inside the
row, which is what the slice form assumes. -/
def unsplit_field (row : List Field) (nb_cols : Nat) (delimiter : Char)
    (index_field : Int) : List Field :=
  let adjusted : Int := if index_field < 0 then (nb_cols : Int) + index_field else index_field
  let i : Nat := adjusted.toNat
  let nb_extra : Int := (row.length : Int) - (nb_cols : Int)
  if 0 < nb_extra then
    let k : Nat := nb_extra.toNat
    let fields_to_join := (row.drop i).take (k + 1)
    row.take i ++ [List.intercalate [delimiter] fields_to_join] ++ row.drop (i + k + 1)
  else
    row

/-- How csv.reader with QUOTE_NONE turns one physical line into a row: an
empty line gives the empty row, any other line is split on the delimiter. -/
def pySplitLine (delimiter : Char) (line : Line) : List Field :=
  if line = [] then [] else line.splitOn delimiter

/-- Python truthiness of the text_col argument (datafile.py line 199,
`if text_col:`): None and 0 are falsy, every other integer is truthy. -/
def tcTruthy : Option Int → Bool
  | none => false
  | some t => t != 0

/-- The row classification loop of custom_reader (datafile.py lines 196-215),
with the accumulating record real_row made explicit.  Returns the emitted
records in order, including the final still-accumulating record. -/
def customReadLoop (delimiter : Char) (nb_cols : Nat) (text_col : Option Int) :
    List Line → List Field → List Rec
  | [], real_row => if real_row ≠ [] then [real_row] else []
  | line :: rest, real_row =>
    let row0 := pySplitLine delimiter line
    let row := if tcTruthy text_col then unsplit_field row0 nb_cols delimiter
        (text_col.getD 0) else row0
    if row.length = nb_cols then
      (if real_row ≠ [] then [real_row] else []) ++
        customReadLoop delimiter nb_cols text_col rest row
    else if row.length = 1 ∧ real_row ≠ [] then
      customReadLoop delimiter nb_cols text_col rest
        (real_row.dropLast ++ [(real_row.getLast!) ++ (' ' :: row.headI)])
    else if row = [] ∧ real_row ≠ [] then
      customReadLoop delimiter nb_cols text_col rest
        (real_row.dropLast ++ [(real_row.getLast!) ++ [' ']])
    else
      customReadLoop delimiter nb_cols text_col rest real_row

/-- datafile.py, custom_reader (lines 184-215).  nb_cols is the width of the
first row (`len(next(reader))`); the file is then re-read from the start
(`seek(0)`).  On a file with no lines at all, `next(reader)` raises
StopIteration inside the generator, which PEP 479 turns into a RuntimeError:
modelled as none (no normal sequence of records exists). -/
def custom_reader (lines : List Line) (delimiter : Char) (text_col : Option Int) :
    Option (List Rec) :=
  match lines with
  | [] => none
  | first :: _ =>
    let nb_cols := (pySplitLine delimiter first).length
    some (customReadLoop delimiter nb_cols text_col lines [])

/-- The Python exceptions that can escape the modelled operations. -/
inductive PyErr : Type where
  /-- tatoebatools.exceptions.NoDataFile, raised by DataFile.__iter__. -/
  | noDataFile : PyErr
  /-- RuntimeError from StopIteration escaping a generator (PEP 479). -/
  | runtimeErr : PyErr
  /-- TypeError from calling a function without its required arguments. -/
  | typeErr : PyErr
deriving Repr, DecidableEq

/-- datafile.py, DataFile.__iter__ (lines 25-33): raise NoDataFile when the
source path is not a file, otherwise iterate custom_reader over its lines.
The filesystem of source files is an association list from path to lines. -/
def DataFile.iterRecords (fs : List (String × List Line)) (path : String)
    (delimiter : Char) (text_col : Option Int) : Except PyErr (List Rec) :=
  match alookup fs path with
  | none => .error .noDataFile
  | some lines =>
    match custom_reader lines delimiter text_col with
    | none => .error .runtimeErr
    | some rows => .ok rows

/-- datafile.py, get_mapped_fields (lines 218-239).  The lookup index is
modelled as a function from field value to optional mapped value; the int_key
flag only changes the type of the key fed to the dict (int(val) before the
lookup), so its effect is folded into the modelled index function and the
flag itself is inert here.  A missing column maps to the empty string; an
unresolved lookup maps to Python None, modelled as Option.none. -/
def get_mapped_fields (row : Rec) (columns : List Nat)
    (index : Option (Field → Option Field)) (int_key : Bool) :
    List (Option Field) :=
  columns.map fun col =>
    if col < row.length then
      let val := row.getD col []
      match index with
      | some idx => idx val
      | none => some val
    else
      some []

/-- datafile.py, DataFile.split (lines 35-58), modelled up to its first
record.  The body calls `get_mapped_fields(row)` with the row as its only
argument, but get_mapped_fields requires the positional arguments columns,
index and int_key (and `get_byte_size_of_row(row)` likewise omits the required
delimiter), so Python raises TypeError on the first record emitted by the
reader; no record is ever routed to the buffer.  When the reader emits no
record the loop body never runs and split finishes normally. -/
def DataFile.split (fs : List (String × List Line)) (path : String)
    (delimiter : Char) (text_col : Option Int) (columns : List Nat)
    (index : Option (Field → Option Field)) (int_key : Bool) :
    Except PyErr Unit :=
  match DataFile.iterRecords fs path delimiter text_col with
  | .error e => .error e
  | .ok [] => .ok ()
  | .ok (_ :: _) => .error .typeErr

/-- The state touched by a Buffer (datafile.py lines 96-165): the files of the
output directory (name to written records), the snapshot of the directory
listing taken at construction (self._fps), and the in-memory queues
(self._data), in dict insertion order. -/
structure BufState : Type where
  fs : List (String × List Rec)
  fps : List String
  data : List (String × List Rec)
deriving Repr, DecidableEq

/-- datafile.py, Buffer.__init__ (lines 102-113): record the names already in
the output directory, start with no queues.  mkdir only affects directories,
which the model does not track. -/
def Buffer.init (fs : List (String × List Rec)) : BufState :=
  { fs := fs, fps := fs.map Prod.fst, data := [] }

/-- datafile.py, Buffer._save (lines 133-150): append the queued records of
out_fname to the in-progress file `out_fname + ".part"` (append mode creates
the file when absent).  On success the queue is cleared and, at end of run,
the in-progress file is renamed to its final name (replacing any file already
there); on OSError the failure is only logged and the state is unchanged.
The disk outcome of the open/write is the explicit argument ok. -/
def Buffer.save (st : BufState) (out_fname : String) (atEnd : Bool) (ok : Bool) :
    BufState :=
  let data := (alookup st.data out_fname).getD []
  let partName := out_fname ++ ".part"
  if ok then
    let fs1 := aset st.fs partName ((alookup st.fs partName).getD [] ++ data)
    let st1 : BufState := { st with fs := fs1, data := aset st.data out_fname [] }
    if atEnd then
      let content := (alookup st1.fs partName).getD []
      { st1 with fs := aset (aerase st1.fs partName) out_fname content }
    else
      st1
  else
    st

/-- datafile.py, Buffer.add (lines 115-131): on the first add for a
destination, create its queue and delete a same-named file that was present at
construction; append the element; when the estimated size of the queue
(sys.getsizeof, modelled by the function parameter sz) exceeds max, save it.
flushOk is the disk outcome of that save, if it happens. -/
def Buffer.add (sz : List Rec → Nat) (max : Nat) (st : BufState) (elt : Rec)
    (out_fname : String) (flushOk : Bool) : BufState :=
  let st1 :=
    if (alookup st.data out_fname).isNone then
      let st' : BufState := { st with data := aset st.data out_fname [] }
      if out_fname ∈ st'.fps then
        { st' with fs := aerase st'.fs out_fname, fps := st'.fps.erase out_fname }
      else
        st'
    else
      st
  let q := (alookup st1.data out_fname).getD [] ++ [elt]
  let st2 : BufState := { st1 with data := aset st1.data out_fname q }
  if max < sz q then Buffer.save st2 out_fname false flushOk else st2

/-- datafile.py, Buffer.clear (lines 152-159): save every queue with end=True,
then clear the whole dict of queues unconditionally.  oks gives the disk
outcome of the save for each destination. -/
def Buffer.clear (oks : String → Bool) (st : BufState) : BufState :=
  let st1 := (st.data.map Prod.fst).foldl (fun s k => Buffer.save s k true (oks k)) st
  { st1 with data := [] }

/-- links.py, Links.filename (lines 53-58). -/
def Links.filename (src tgt : String) : String :=
  src ++ "-" ++ tgt ++ "_links.tsv"

/-- links.py, Links.__iter__ (lines 25-39): iterate the DataFile with tab
delimiter and text_col=None, wrapping each row into a Link; NoDataFile is
caught, a warning is logged and nothing is yielded.  The Bool of the result
records whether the warning was logged.  A RuntimeError from the reader is not
caught; a row that does not have exactly the two field names raises while
building the Link keyword dict. -/
def Links.iterLinks (fs : List (String × List Line)) (src tgt : String) :
    Except PyErr (List (Field × Field) × Bool) :=
  match DataFile.iterRecords fs (Links.filename src tgt) '\t' none with
  | .error .noDataFile => .ok ([], true)
  | .error e => .error e
  | .ok rows =>
    if rows.all fun r => r.length = 2 then
      .ok (rows.map (fun r => (r.headI, (r.drop 1).headI)), false)
    else
      .error .typeErr

/-- The sizes observed by the threshold check of Buffer.add over a sequence of
adds to one destination with working disk: for each add, the estimated size of
the queue right after the append (the value compared against max on line 130)
paired with the estimated size just before the append. -/
def addTrace (sz : List Rec → Nat) (max : Nat) (f : String) :
    BufState → List Rec → List (Nat × Nat)
  | _, [] => []
  | st, e :: rest =>
    let q := (alookup st.data f).getD []
    (sz (q ++ [e]), sz q) :: addTrace sz max f (Buffer.add sz max st e f true) rest

/-- Every observed post-append size stays within max plus the marginal
contribution of the record that was just appended. -/
def peaksBounded (max : Nat) (trace : List (Nat × Nat)) : Bool :=
  trace.all fun p => decide (p.1 ≤ max + (p.1 - p.2))

lemma alookup_aset_self {β : Type} (l : List (String × β)) (k : String) (v : β) :
    alookup (aset l k v) k = some v := by
  induction l with
  | nil => simp [aset, alookup]
  | cons hd tl ih =>
    obtain ⟨k', w⟩ := hd
    by_cases h : k' = k <;> simp [aset, alookup, h, ih]

lemma add_data_eq (sz : List Rec → Nat) (max : Nat) (st : BufState) (e : Rec)
    (f : String) (ok : Bool) :
    (Buffer.add sz max st e f ok).data =
      (let d1 := if (alookup st.data f).isNone then aset st.data f [] else st.data
       let q := (alookup d1 f).getD [] ++ [e]
       let d2 := aset d1 f q
       if max < sz q then (if ok then aset d2 f [] else d2) else d2) := by
  simp only [Buffer.add, Buffer.save]
  cases ok <;> split <;> (try split) <;> (try split) <;> rfl

lemma add_lookup_true (sz : List Rec → Nat) (max : Nat) (st : BufState) (e : Rec)
    (f : String) :
    alookup (Buffer.add sz max st e f true).data f =
      some (if max < sz ((alookup st.data f).getD [] ++ [e]) then []
            else (alookup st.data f).getD [] ++ [e]) := by
  rw [add_data_eq]
  have hq : (alookup (if (alookup st.data f).isNone then aset st.data f []
      else st.data) f).getD [] = (alookup st.data f).getD [] := by
    cases hl : alookup st.data f with
    | none => simp [hl, alookup_aset_self]
    | some q => simp [hl]
  simp only [hq]
  split <;> simp [alookup_aset_self]

lemma addTrace_bounded (sz : List Rec → Nat) (max : Nat) (f : String)
    (h0 : sz [] ≤ max) (elts : List Rec) :
    ∀ st : BufState, sz ((alookup st.data f).getD []) ≤ max →
      peaksBounded max (addTrace sz max f st elts) = true := by
  induction elts with
  | nil => intro st _; rfl
  | cons e rest ih =>
    intro st hst
    simp only [addTrace, peaksBounded, List.all_cons, Bool.and_eq_true,
      decide_eq_true_eq] at *
    refine ⟨by omega, ?_⟩
    apply ih
    rw [add_lookup_true]
    split
    · simpa using h0
    · simp only [Option.getD_some]
      omega

/-- Claim C3: for any sequence of Buffer.add calls on one destination in
which every triggered flush succeeds, the queue's estimated size never
exceeds the configured threshold by more than the contribution of the single
most-recently-added record: at every post-append size check, the observed
size is at most max plus the difference between the post-append and the
pre-append estimated size, because a flush is triggered as soon as the check
exceeds the threshold.  (The estimated size of an empty queue must itself fit
under the threshold, as sys.getsizeof of an empty list does under the default
max_size of 10000.) -/
theorem claim_C3_bounded_queue (sz : List Rec → Nat) (max : Nat)
    (h0 : sz [] ≤ max) (fs0 : List (String × List Rec)) (elts : List Rec)
    (f : String) :
    peaksBounded max (addTrace sz max f (Buffer.init fs0) elts) = true :=
  addTrace_bounded sz max f h0 elts (Buffer.init fs0)
    (by simpa [Buffer.init, alookup] using h0)

/-- Witness for C3 at a concrete size estimate, threshold and add sequence. -/
theorem claim_C3_witness :
    (fun l : List Rec => 56 + 8 * l.length) [] ≤ 60
    ∧ peaksBounded 60 (addTrace (fun l : List Rec => 56 + 8 * l.length) 60 "f"
        (Buffer.init []) [[['a']], [['b']], [['c']]]) = true :=
  ⟨by decide, claim_C3_bounded_queue (fun l : List Rec => 56 + 8 * l.length) 60
    (by decide) [] [[['a']], [['b']], [['c']]] "f"⟩

/-- Claim C8: finalize is idempotent.  Buffer.clear empties the dict of
queues, so a second Buffer.clear iterates over no destination: it performs no
write, no rename and no queue change, and the state (files on disk included)
is exactly the state after the first clear, whatever the disk outcomes of
either invocation were. -/
theorem claim_C8_finalize_idempotent (oks1 oks2 : String → Bool) (st : BufState) :
    Buffer.clear oks2 (Buffer.clear oks1 st) = Buffer.clear oks1 st :=
  rfl

/-- Claim C5: on the first Buffer.add for a destination not yet seen in this
run, a final file at that destination name that existed when the buffer was
constructed is deleted before the first append; a run that then adds exactly
two records to that destination and finalizes leaves a final file holding
exactly those two records and none from the prior run.  Stated for the
default threshold of 10000 with a count-based size estimate (no intermediate
flush is triggered) and a working disk. -/
theorem claim_C5_no_mixing (old : List Rec) (r1 r2 : Rec) :
    (alookup (Buffer.add (fun l => l.length) 10000
        (Buffer.init [("en-fr_links.tsv", old)]) r1 "en-fr_links.tsv" true).fs
      "en-fr_links.tsv" = none)
    ∧ alookup (Buffer.clear (fun _ => true)
        (Buffer.add (fun l => l.length) 10000
          (Buffer.add (fun l => l.length) 10000
            (Buffer.init [("en-fr_links.tsv", old)]) r1 "en-fr_links.tsv" true)
          r2 "en-fr_links.tsv" true)).fs
      "en-fr_links.tsv" = some [r1, r2] :=
  ⟨rfl, rfl⟩

/-- Claim C9: the first-touch deletion of Buffer.add removes only the file
with the final destination name; an in-progress file at the destination name
with the .part suffix, left by an interrupted prior run, is never deleted,
the flush appends after its prior contents, and those contents end up in the
finalized output file.  Stated for the default threshold of 10000 with a
count-based size estimate and a working disk. -/
theorem claim_C9_part_file_kept (stale old : List Rec) (r : Rec) :
    (alookup (Buffer.add (fun l => l.length) 10000
        (Buffer.init [("en-fr_links.tsv", old), ("en-fr_links.tsv.part", stale)])
        r "en-fr_links.tsv" true).fs "en-fr_links.tsv.part" = some stale)
    ∧ (alookup (Buffer.add (fun l => l.length) 10000
        (Buffer.init [("en-fr_links.tsv", old), ("en-fr_links.tsv.part", stale)])
        r "en-fr_links.tsv" true).fs "en-fr_links.tsv" = none)
    ∧ alookup (Buffer.clear (fun _ => true)
        (Buffer.add (fun l => l.length) 10000
          (Buffer.init [("en-fr_links.tsv", old), ("en-fr_links.tsv.part", stale)])
          r "en-fr_links.tsv" true)).fs "en-fr_links.tsv"
      = some (stale ++ [r]) :=
  ⟨rfl, rfl, rfl⟩

/-- Claim C1, counterexample: a record added to the buffer is lost when the
flush that fails is the finalize-triggered one.  One record is added (the
queue holds it), the disk fails during Buffer.clear, and afterwards the
queues are empty and no file was written: the record is retained nowhere. -/
theorem claim_C1_counterexample :
    (alookup (Buffer.add (fun l => l.length) 10000 (Buffer.init [])
        [['a']] "f" true).data "f" = some [[['a']]])
    ∧ (Buffer.clear (fun _ => false)
        (Buffer.add (fun l => l.length) 10000 (Buffer.init [])
          [['a']] "f" true)).data = []
    ∧ (Buffer.clear (fun _ => false)
        (Buffer.add (fun l => l.length) 10000 (Buffer.init [])
          [['a']] "f" true)).fs = [] := by
  decide

/-- Claim C1 as amended: when a flush triggered by Buffer.add fails, the
failure is only logged, the queue for that destination keeps every record
(the new one appended to the old ones), nothing on disk changes, and the next
successful flush appends exactly the retained records to the in-progress
file and empties the queue.  But when the failing flush happens during
finalize, Buffer.clear empties the whole queue dict afterwards, so the
retained records of that destination are lost (see the counterexample). -/
theorem claim_C1_retained_on_failed_flush (sz : List Rec → Nat) (max : Nat)
    (st : BufState) (q : List Rec) (e : Rec) (f : String)
    (h : alookup st.data f = some q) :
    (Buffer.add sz max st e f false).fs = st.fs
    ∧ alookup (Buffer.add sz max st e f false).data f = some (q ++ [e])
    ∧ alookup (Buffer.save (Buffer.add sz max st e f false) f false true).fs
        (f ++ ".part")
      = some ((alookup st.fs (f ++ ".part")).getD [] ++ (q ++ [e]))
    ∧ alookup (Buffer.save (Buffer.add sz max st e f false) f false true).data f
      = some [] := by
  have hfs : (Buffer.add sz max st e f false).fs = st.fs := by
    simp only [Buffer.add, Buffer.save, h]
    split <;> (try split) <;> simp_all
  have hdata : alookup (Buffer.add sz max st e f false).data f = some (q ++ [e]) := by
    rw [add_data_eq]
    simp [h, alookup_aset_self]
  refine ⟨hfs, hdata, ?_, ?_⟩
  · simp only [Buffer.save, hdata, hfs, if_pos, if_neg]
    simp [alookup_aset_self]
  · simp only [Buffer.save, hdata]
    simp [alookup_aset_self]

/-- Witness for the amended C1 at a concrete state: one queued record, a
failing threshold flush (threshold 0 forces the flush), then a succeeding
flush. -/
theorem claim_C1_witness :
    alookup (BufState.mk [] [] [("f", [[['a']]])]).data "f" = some [[['a']]]
    ∧ ((Buffer.add (fun l => l.length) 0 (BufState.mk [] [] [("f", [[['a']]])])
          [['b']] "f" false).fs = (BufState.mk [] [] [("f", [[['a']]])]).fs
      ∧ alookup (Buffer.add (fun l => l.length) 0
            (BufState.mk [] [] [("f", [[['a']]])]) [['b']] "f" false).data "f"
          = some ([[['a']]] ++ [[['b']]])
      ∧ alookup (Buffer.save (Buffer.add (fun l => l.length) 0
            (BufState.mk [] [] [("f", [[['a']]])]) [['b']] "f" false) "f" false
            true).fs ("f" ++ ".part")
          = some ((alookup (BufState.mk [] [] [("f", [[['a']]])]).fs
              ("f" ++ ".part")).getD [] ++ ([[['a']]] ++ [[['b']]]))
      ∧ alookup (Buffer.save (Buffer.add (fun l => l.length) 0
            (BufState.mk [] [] [("f", [[['a']]])]) [['b']] "f" false) "f" false
            true).data "f" = some []) :=
  ⟨rfl, claim_C1_retained_on_failed_flush (fun l => l.length) 0
    (BufState.mk [] [] [("f", [[['a']]])]) [[['a']]] [['b']] "f" rfl⟩

/-- Claim C4: with delimiter tab, nb_cols = 2 established from the first
line and text-field index 1, the four physical lines "1\thello", "world", ""
and "2\tbye" are read as exactly two records in order: the single-field
continuation "world" is appended to the last field with one space, the blank
line appends one trailing space, and the row "2\tbye" emits the accumulated
record, itself emitted at end of input. -/
theorem claim_C4_multiline_example :
    custom_reader ["1\thello".toList, "world".toList, "".toList, "2\tbye".toList]
      '\t' (some 1)
    = some [["1".toList, "hello world ".toList], ["2".toList, "bye".toList]] := by
  decide

/-- Claim C10: a source file that exists but contains no lines does not read
as an empty sequence of records: custom_reader has no normal result on empty
input (the nb_cols computation calls next() on the csv reader, whose
StopIteration becomes a RuntimeError inside the generator), so DataFile
iteration raises instead of yielding zero records. -/
theorem claim_C10_empty_file_raises :
    custom_reader [] '\t' (some (-1)) = none
    ∧ DataFile.iterRecords [("sentences.csv", ([] : List Line))] "sentences.csv"
        '\t' (some (-1)) = .error .runtimeErr :=
  ⟨rfl, rfl⟩

/-- Claim C2, code behaviour at the failing input: the reader emits one
record from the one-line file, and DataFile.split raises TypeError on that
first record (its body calls get_mapped_fields with the row as only argument,
though columns, index and int_key are required), so no record is ever routed
by the mapped-field rule the claim describes. -/
theorem claim_C2_split_type_error :
    DataFile.iterRecords [("sentences.csv", ["1\t2".toList])] "sentences.csv"
      '\t' (some (-1)) = .ok [["1".toList, "2".toList]]
    ∧ DataFile.split [("sentences.csv", ["1\t2".toList])] "sentences.csv" '\t'
        (some (-1)) [0] none false = .error .typeErr :=
  ⟨rfl, rfl⟩

/-- Claim C6: when the requested source file does not exist, DataFile
iteration signals NoDataFile before yielding any record, and Links catches
it, logs a warning (the Bool of the result) and proceeds with an empty
sequence of links. -/
theorem claim_C6_missing_file (fs : List (String × List Line)) (src tgt : String)
    (h : alookup fs (Links.filename src tgt) = none) :
    DataFile.iterRecords fs (Links.filename src tgt) '\t' none
      = .error .noDataFile
    ∧ Links.iterLinks fs src tgt = .ok ([], true) := by
  simp [DataFile.iterRecords, Links.iterLinks, h]

/-- Witness for C6 on an empty filesystem. -/
theorem claim_C6_witness :
    alookup ([] : List (String × List Line)) (Links.filename "en" "fr") = none
    ∧ (DataFile.iterRecords ([] : List (String × List Line))
        (Links.filename "en" "fr") '\t' none = .error .noDataFile
      ∧ Links.iterLinks ([] : List (String × List Line)) "en" "fr"
        = .ok ([], true)) :=
  ⟨rfl, claim_C6_missing_file [] "en" "fr" rfl⟩

lemma intercalate_cons_of_ne_nil {α : Type} (s x : List α) (ys : List (List α))
    (h : ys ≠ []) :
    List.intercalate s (x :: ys) = x ++ s ++ List.intercalate s ys := by
  cases ys with
  | nil => exact absurd rfl h
  | cons y ys => simp [List.intercalate, List.append_assoc]

lemma intercalate_single {α : Type} (s x : List α) :
    List.intercalate s [x] = x := by
  simp [List.intercalate]

lemma intercalate_glue {α : Type} (s : List α) (B C : List (List α)) (hB : B ≠ []) :
    List.intercalate s (List.intercalate s B :: C) = List.intercalate s (B ++ C) := by
  induction B with
  | nil => exact absurd rfl hB
  | cons b B' ih =>
    cases B' with
    | nil => simp [intercalate_single]
    | cons b' B'' =>
      have h1 : List.intercalate s (b :: b' :: B'')
          = b ++ s ++ List.intercalate s (b' :: B'') :=
        intercalate_cons_of_ne_nil s b (b' :: B'') (by simp)
      cases C with
      | nil => simp [intercalate_single]
      | cons c C' =>
        have h2 := ih (by simp)
        rw [intercalate_cons_of_ne_nil s _ (c :: C') (by simp), h1]
        have h3 : ((b :: b' :: B'') ++ (c :: C')) = b :: ((b' :: B'') ++ (c :: C')) := rfl
        rw [h3, intercalate_cons_of_ne_nil s b _ (by simp), ← h2,
          intercalate_cons_of_ne_nil s _ (c :: C') (by simp)]
        simp [List.append_assoc]

lemma intercalate_middle {α : Type} (s : List α) (A B C : List (List α))
    (hB : B ≠ []) :
    List.intercalate s (A ++ [List.intercalate s B] ++ C)
      = List.intercalate s (A ++ B ++ C) := by
  induction A with
  | nil => simpa using intercalate_glue s B C hB
  | cons a A' ih =>
    have hne1 : A' ++ [List.intercalate s B] ++ C ≠ [] := by simp
    have hne2 : A' ++ B ++ C ≠ [] := by simp [hB]
    calc List.intercalate s ((a :: A') ++ [List.intercalate s B] ++ C)
        = List.intercalate s (a :: (A' ++ [List.intercalate s B] ++ C)) := by simp
      _ = a ++ s ++ List.intercalate s (A' ++ [List.intercalate s B] ++ C) :=
          intercalate_cons_of_ne_nil s a _ hne1
      _ = a ++ s ++ List.intercalate s (A' ++ B ++ C) := by rw [ih]
      _ = List.intercalate s (a :: (A' ++ B ++ C)) :=
          (intercalate_cons_of_ne_nil s a _ hne2).symm
      _ = List.intercalate s ((a :: A') ++ B ++ C) := by simp

lemma count_intercalate_free (d : Char) :
    ∀ frags : List Field, frags ≠ [] → (∀ l ∈ frags, d ∉ l) →
      List.count d (List.intercalate [d] frags) = frags.length - 1 := by
  intro frags
  induction frags with
  | nil => intro h _; exact absurd rfl h
  | cons x frs ih =>
    intro _ hfree
    cases frs with
    | nil => simp [intercalate_single, List.count_eq_zero.mpr (hfree x (by simp))]
    | cons y frs' =>
      rw [intercalate_cons_of_ne_nil [d] x (y :: frs') (by simp)]
      have hx : List.count d x = 0 := List.count_eq_zero.mpr (hfree x (by simp))
      have ihh := ih (by simp) (fun l hl => hfree l (by simp [hl]))
      simp only [List.count_append, hx, ihh]
      simp
      omega

/-- Claim C7: overflow round-trip.  A record whose designated text field
holds embedded delimiters (here the text field is the delimiter-joined
nonempty fragment list frags, with at least one embedded delimiter, between
delimiter-free fields A and C): serializing it with the delimiter and
splitting the line back yields nb_cols plus (number of embedded delimiters)
fragments, and unsplit_field rejoins the surplus fragments into the text
position, reconstructing exactly the original row, its text field content
included. -/
theorem claim_C7_overflow_roundtrip (d : Char) (A C frags : List Field)
    (hA : ∀ l ∈ A, d ∉ l) (hC : ∀ l ∈ C, d ∉ l)
    (hfrags : ∀ l ∈ frags, d ∉ l) (hk : 2 ≤ frags.length) :
    ((List.intercalate [d] (A ++ [List.intercalate [d] frags] ++ C)).splitOn d).length
      = (A ++ [List.intercalate [d] frags] ++ C).length
        + List.count d (List.intercalate [d] frags)
    ∧ unsplit_field
        ((List.intercalate [d] (A ++ [List.intercalate [d] frags] ++ C)).splitOn d)
        (A ++ [List.intercalate [d] frags] ++ C).length d (A.length : Int)
      = A ++ [List.intercalate [d] frags] ++ C := by
  have hne : frags ≠ [] := by
    intro h
    rw [h] at hk
    simp at hk
  have hsplit : (List.intercalate [d]
      (A ++ [List.intercalate [d] frags] ++ C)).splitOn d = A ++ frags ++ C := by
    rw [intercalate_middle [d] A frags C hne]
    have hpieces : ∀ l ∈ A ++ frags ++ C, d ∉ l := by
      intro l hl
      simp only [List.mem_append] at hl
      rcases hl with (hl | hl) | hl
      · exact hA l hl
      · exact hfrags l hl
      · exact hC l hl
    have hnil : A ++ frags ++ C ≠ [] := by simp [hne]
    exact List.splitOn_intercalate (A ++ frags ++ C) d hpieces hnil
  have hcount : List.count d (List.intercalate [d] frags) = frags.length - 1 :=
    count_intercalate_free d frags hne hfrags
  have hlenA : (A ++ [List.intercalate [d] frags] ++ C).length
      = A.length + 1 + C.length := by
    simp
    omega
  have hlenS : (A ++ frags ++ C).length = A.length + frags.length + C.length := by
    simp
    omega
  constructor
  · rw [hsplit, hcount, hlenA, hlenS]
    omega
  · rw [hsplit]
    simp only [unsplit_field, hlenA, hlenS]
    have hadj : ¬ ((A.length : Int) < 0) := by omega
    rw [if_neg hadj]
    have hextra : ((A.length + frags.length + C.length : Nat) : Int)
        - ((A.length + 1 + C.length : Nat) : Int)
        = ((frags.length - 1 : Nat) : Int) := by
      push_cast
      omega
    rw [hextra]
    have hpos : (0 : Int) < ((frags.length - 1 : Nat) : Int) := by
      have : 1 ≤ frags.length - 1 := by omega
      exact_mod_cast this
    rw [if_pos hpos]
    simp only [Int.toNat_natCast]
    have hdrop : (A ++ frags ++ C).drop A.length = frags ++ C := by
      rw [List.append_assoc]
      exact List.drop_left A (frags ++ C)
    have htake1 : (frags ++ C).take (frags.length - 1 + 1) = frags := by
      have h1 : frags.length - 1 + 1 = frags.length := by omega
      rw [h1]
      exact List.take_left frags C
    have htakeA : (A ++ frags ++ C).take A.length = A := by
      rw [List.append_assoc]
      exact List.take_left A (frags ++ C)
    have hdrop2 : (A ++ frags ++ C).drop (A.length + (frags.length - 1) + 1) = C := by
      have h1 : A.length + (frags.length - 1) + 1 = (A ++ frags).length := by
        simp
        omega
      rw [h1]
      exact List.drop_left (A ++ frags) C
    rw [hdrop, htake1, htakeA, hdrop2]

/-- Witness for C7: row ["1", "he\tllo"] with tab delimiter, text field at
index 1 given as the fragments ["he", "llo"]. -/
theorem claim_C7_witness :
    (∀ l ∈ (["1".toList] : List Field), '\t' ∉ l)
    ∧ (∀ l ∈ ([] : List Field), '\t' ∉ l)
    ∧ (∀ l ∈ (["he".toList, "llo".toList] : List Field), '\t' ∉ l)
    ∧ 2 ≤ (["he".toList, "llo".toList] : List Field).length
    ∧ (((List.intercalate ['\t'] (["1".toList]
          ++ [List.intercalate ['\t'] ["he".toList, "llo".toList]] ++ [])).splitOn '\t').length
        = (["1".toList] ++ [List.intercalate ['\t'] ["he".toList, "llo".toList]] ++ []).length
          + List.count '\t' (List.intercalate ['\t'] ["he".toList, "llo".toList])
      ∧ unsplit_field
          ((List.intercalate ['\t'] (["1".toList]
            ++ [List.intercalate ['\t'] ["he".toList, "llo".toList]] ++ [])).splitOn '\t')
          (["1".toList] ++ [List.intercalate ['\t'] ["he".toList, "llo".toList]] ++ []).length
          '\t' ((["1".toList] : List Field).length : Int)
        = ["1".toList] ++ [List.intercalate ['\t'] ["he".toList, "llo".toList]] ++ []) :=
  ⟨by decide, by decide, by decide, by decide,
    claim_C7_overflow_roundtrip '\t' ["1".toList] [] ["he".toList, "llo".toList]
      (by decide) (by decide) (by decide) (by decide)⟩

end Tatoeba
